import Mathlib

/-
Verification of the local-first write-ahead sync queue implemented by
HybridBackend in src/lib/storageAdapter.ts, together with its persistence
helpers readQueuedOperations / writeQueuedOperations.

Modelling choices (shallow embedding):
* Queued operations are plain JavaScript objects (the discriminated union
  SyncOperation); we model them as values of a small Json type.  enqueue
  pushes the objects built by addCalculation / deleteCalculation /
  bulkDeleteCalculations / clearCalculations.
* window.localStorage under the single key "spring-rate-sync-queue" is
  modelled as Option RawValue: none is a missing entry, RawValue.malformed
  is a stored string that JSON.parse rejects, and RawValue.wellFormed j is a
  stored string that parses to the JSON value j.  JSON.stringify followed by
  JSON.parse is the identity at this level.
* The event-driven execution (debounce timer, fetch resolution, the window
  "online" event, manual triggerBackgroundSync calls) is a deterministic
  step function over configurations.  Each Step is one synchronous block of
  the source, which runs atomically between the suspension points (the
  setTimeout callback and await fetch), per the single-threaded cooperative
  scheduling of the host.  Config.inflight records the batches of fetches
  that have started and not yet resolved, oldest first.
* Listener notification never touches the sync state (listeners live outside
  the backend), so the main model omits the listener set; notify below
  models it separately with JavaScript Set iteration semantics: iteration is
  in insertion order, an element deleted before being visited is skipped,
  and deleting an already-visited element does not affect the iteration.
-/

/-- JSON values, the runtime representation of queued operations and of the
persisted queue. -/
inductive Json where
  | null : Json
  | bool (b : Bool) : Json
  | num (n : Int) : Json
  | str (s : String) : Json
  | arr (elems : List Json) : Json
  | obj (fields : List (String × Json)) : Json

/-- Sync state, mirroring SyncState in storageAdapter.ts. -/
inductive SyncState where
  | disabled : SyncState
  | idle : SyncState
  | queued : SyncState
  | syncing : SyncState
  | error : SyncState
deriving DecidableEq

/-- Mirrors the SyncStatus interface; timestamps are modelled as Nat. -/
structure SyncStatus where
  state : SyncState
  pending : Nat
  lastSyncedAt : Option Nat
  lastError : Option String

/-- The string stored in localStorage under QUEUE_STORAGE_KEY, seen through
JSON.parse: either it parses to a JSON value or parsing throws. -/
inductive RawValue where
  | wellFormed (j : Json) : RawValue
  | malformed : RawValue

/-- Mirrors readQueuedOperations: a missing entry, a string JSON.parse
rejects, and a parsed non-array value all hydrate to the empty queue; a
parsed array is returned as-is (the source casts, it does not validate the
elements). -/
def readQueuedOperations : Option RawValue → List Json
  | none => []
  | some RawValue.malformed => []
  | some (RawValue.wellFormed (Json.arr elems)) => elems
  | some (RawValue.wellFormed _) => []

/-- Mirrors writeQueuedOperations: JSON.stringify of the operations array is
stored under the single key (storage quota failures, which the source
swallows, are not modelled: the model covers executions where setItem
succeeds). -/
def writeQueuedOperations (operations : List Json) : Option RawValue :=
  some (RawValue.wellFormed (Json.arr operations))

/-- The mutable fields of a HybridBackend together with its environment:
the persisted storage slot, the pending debounce timer (absolute deadline),
the batches of unresolved fetches, navigator.onLine, and the clock. -/
structure Config where
  queue : List Json
  storage : Option RawValue
  status : SyncStatus
  syncTimer : Option Nat
  inflight : List (List Json)
  online : Bool
  now : Nat

/-- Mirrors triggerBackgroundSync: return if a debounce timer is already
pending, return if the queue is empty or the browser is offline, otherwise
arm the 250 ms timer. -/
def triggerBackgroundSync (c : Config) : Config :=
  if c.syncTimer.isSome then c
  else if c.queue.isEmpty || !c.online then c
  else { c with syncTimer := some (c.now + 250) }

/-- Mirrors enqueue: push the operation, persist the full queue, publish
state "queued" with pending set to the new length (the object literal keeps
lastSyncedAt and drops lastError), then call triggerBackgroundSync. -/
def enqueue (c : Config) (operation : Json) : Config :=
  triggerBackgroundSync
    { c with
        queue := c.queue ++ [operation]
        storage := writeQueuedOperations (c.queue ++ [operation])
        status :=
          { state := SyncState.queued
            pending := (c.queue ++ [operation]).length
            lastSyncedAt := c.status.lastSyncedAt
            lastError := none } }

/-- The synchronous head of flushQueue, up to the fetch call: empty queue
publishes idle, offline publishes queued, otherwise a snapshot of the queue
is taken as the batch, state "syncing" is published and the fetch starts. -/
def flushStart (c : Config) : Config :=
  if c.queue.isEmpty then
    { c with
        status :=
          { state := SyncState.idle
            pending := 0
            lastSyncedAt := c.status.lastSyncedAt
            lastError := none } }
  else if !c.online then
    { c with
        status :=
          { state := SyncState.queued
            pending := c.queue.length
            lastSyncedAt := c.status.lastSyncedAt
            lastError := none } }
  else
    { c with
        status :=
          { state := SyncState.syncing
            pending := c.queue.length
            lastSyncedAt := c.status.lastSyncedAt
            lastError := none }
        inflight := c.inflight ++ [c.queue] }

/-- The setTimeout callback: clears syncTimer and runs flushQueue.  The
callback runs no earlier than its deadline, so the clock advances to the
deadline if it has not already passed it. -/
def timerFire (c : Config) : Config :=
  match c.syncTimer with
  | none => c
  | some t => flushStart { c with syncTimer := none, now := max c.now t }

/-- The success continuation of flushQueue for a fetch whose captured batch
was `batch`: splice(0, batch.length) removes exactly the first batch.length
entries, the shrunk queue is persisted, lastSyncedAt is set to Date.now(),
state becomes idle or queued by emptiness, and a non-empty queue re-triggers
the scheduler. -/
def flushSuccessState (c : Config) (batch : List Json) : Config :=
  { c with
      queue := c.queue.drop batch.length
      storage := writeQueuedOperations (c.queue.drop batch.length)
      status :=
        { state :=
            if (c.queue.drop batch.length).isEmpty then SyncState.idle
            else SyncState.queued
          pending := (c.queue.drop batch.length).length
          lastSyncedAt := some c.now
          lastError := none } }

def flushSuccess (c : Config) (batch : List Json) : Config :=
  if (c.queue.drop batch.length).isEmpty then flushSuccessState c batch
  else triggerBackgroundSync (flushSuccessState c batch)

/-- The catch branch of flushQueue: the queue and storage are untouched;
only the status changes, to state "error" with pending set to the current
queue length and the caught message recorded. -/
def flushFailure (c : Config) (message : String) : Config :=
  { c with
      status :=
        { state := SyncState.error
          pending := c.queue.length
          lastSyncedAt := c.status.lastSyncedAt
          lastError := some message } }

/-- One atomic synchronous block of the event loop: an enqueue (after a
successful local mutation), a manual triggerBackgroundSync call, the
debounce timer callback, resolution (success or failure) of the i-th
unresolved fetch, the connectivity events, and the passage of time. -/
inductive Step where
  | enq (operation : Json) : Step
  | trigger : Step
  | fire : Step
  | ok (i : Nat) : Step
  | fail (i : Nat) (message : String) : Step
  | goOnline : Step
  | goOffline : Step
  | tick (dt : Nat) : Step

/-- Deterministic small-step interpreter for one event. -/
def stepFn (c : Config) : Step → Config
  | Step.enq operation => enqueue c operation
  | Step.trigger => triggerBackgroundSync c
  | Step.fire => timerFire c
  | Step.ok i =>
      match c.inflight.get? i with
      | none => c
      | some batch => flushSuccess { c with inflight := c.inflight.eraseIdx i } batch
  | Step.fail i message =>
      match c.inflight.get? i with
      | none => c
      | some _ => flushFailure { c with inflight := c.inflight.eraseIdx i } message
  | Step.goOnline => triggerBackgroundSync { c with online := true }
  | Step.goOffline => { c with online := false }
  | Step.tick dt => { c with now := c.now + dt }

/-- Run a sequence of events. -/
def run (c : Config) (steps : List Step) : Config :=
  steps.foldl stepFn c

/-- The field assignments of the HybridBackend constructor: hydrate the
queue from storage and publish queued/idle with pending equal to the
hydrated length. -/
def mkBackendBase (storage : Option RawValue) (online : Bool) : Config :=
  { queue := readQueuedOperations storage
    storage := storage
    status :=
      { state :=
          if (readQueuedOperations storage).isEmpty then SyncState.idle
          else SyncState.queued
        pending := (readQueuedOperations storage).length
        lastSyncedAt := none
        lastError := none }
    syncTimer := none
    inflight := []
    online := online
    now := 0 }

/-- Mirrors the HybridBackend constructor: the field assignments above,
followed by a triggerBackgroundSync call when the hydrated queue is
non-empty. -/
def mkBackend (storage : Option RawValue) (online : Bool) : Config :=
  if (readQueuedOperations storage).isEmpty then mkBackendBase storage online
  else triggerBackgroundSync (mkBackendBase storage online)

/-- The object literal pushed by addCalculation. -/
def addOp (record : Json) : Json :=
  Json.obj [("type", Json.str "add"), ("record", record)]

/-- The object literal pushed by deleteCalculation. -/
def deleteOp (id : String) : Json :=
  Json.obj [("type", Json.str "delete"), ("id", Json.str id)]

/-- The object literal pushed by bulkDeleteCalculations. -/
def bulkDeleteOp (ids : List String) : Json :=
  Json.obj [("type", Json.str "bulkDelete"), ("ids", Json.arr (ids.map Json.str))]

/-- The object literal pushed by clearCalculations. -/
def clearOp : Json :=
  Json.obj [("type", Json.str "clear")]

/-- Mirrors HybridBackend.addCalculation: await the local backend (whose
outcome is injected as localResult); a rejection propagates and nothing else
runs; on success the operation is enqueued and the caller resolves. -/
def addCalculation (localResult : Except String Unit) (c : Config) (record : Json) :
    Except String Unit × Config :=
  match localResult with
  | Except.error e => (Except.error e, c)
  | Except.ok _ => (Except.ok (), enqueue c (addOp record))

/-- Mirrors HybridBackend.deleteCalculation. -/
def deleteCalculation (localResult : Except String Unit) (c : Config) (id : String) :
    Except String Unit × Config :=
  match localResult with
  | Except.error e => (Except.error e, c)
  | Except.ok _ => (Except.ok (), enqueue c (deleteOp id))

/-- Mirrors HybridBackend.bulkDeleteCalculations: an empty id list resolves
without enqueueing. -/
def bulkDeleteCalculations (localResult : Except String Unit) (c : Config) (ids : List String) :
    Except String Unit × Config :=
  match localResult with
  | Except.error e => (Except.error e, c)
  | Except.ok _ =>
      if ids.isEmpty then (Except.ok (), c)
      else (Except.ok (), enqueue c (bulkDeleteOp ids))

/-- Mirrors HybridBackend.clearCalculations. -/
def clearCalculations (localResult : Except String Unit) (c : Config) :
    Except String Unit × Config :=
  match localResult with
  | Except.error e => (Except.error e, c)
  | Except.ok _ => (Except.ok (), enqueue c clearOp)

/-- A subscribed listener: its identity in the Set and the unsubscriptions
its callback performs (the ids whose unsubscribe closures it calls). -/
structure ListenerSpec where
  id : Nat
  action : SyncStatus → List Nat

/-- Fuel-indexed worker for notify.  JavaScript Set iteration visits
entries in insertion order; an entry removed by an earlier callback before
being visited is not visited.  Each step removes at least one element, so
fuel equal to the initial length is always sufficient. -/
def notifyFuel (status : SyncStatus) : Nat → List ListenerSpec → List Nat
  | 0, _ => []
  | _, [] => []
  | Nat.succ fuel, l :: rest =>
      l.id ::
        notifyFuel status fuel
          (rest.filter (fun x => !((l.action status).contains x.id)))

/-- Mirrors HybridBackend.notify: iterate the live listener Set (no
snapshot is taken) and return the ids invoked, in invocation order. -/
def notify (status : SyncStatus) (listeners : List ListenerSpec) : List Nat :=
  notifyFuel status listeners.length listeners

/-- Concrete operations used by counterexample traces and witnesses. -/
def opA : Json := addOp (Json.obj [("id", Json.str "a")])

/-- Second concrete operation. -/
def opB : Json := deleteOp "b"

theorem trigger_fields (c : Config) :
    (triggerBackgroundSync c).queue = c.queue ∧
    (triggerBackgroundSync c).storage = c.storage ∧
    (triggerBackgroundSync c).status = c.status ∧
    (triggerBackgroundSync c).inflight = c.inflight ∧
    (triggerBackgroundSync c).online = c.online ∧
    (triggerBackgroundSync c).now = c.now := by
  unfold triggerBackgroundSync
  by_cases h1 : c.syncTimer.isSome
  · simp [h1]
  · by_cases h2 : (c.queue.isEmpty || !c.online) = true
    · simp [h1, h2]
    · simp [h1, h2]

theorem append_singleton_isEmpty (l : List Json) (a : Json) :
    (l ++ [a]).isEmpty = false := by
  cases l <;> rfl

theorem enqueue_fields (c : Config) (operation : Json) :
    (enqueue c operation).queue = c.queue ++ [operation] ∧
    (enqueue c operation).storage = writeQueuedOperations (c.queue ++ [operation]) ∧
    (enqueue c operation).status =
      { state := SyncState.queued
        pending := c.queue.length + 1
        lastSyncedAt := c.status.lastSyncedAt
        lastError := none } ∧
    (enqueue c operation).inflight = c.inflight ∧
    (enqueue c operation).online = c.online ∧
    (enqueue c operation).now = c.now := by
  unfold enqueue
  obtain ⟨hq, hs, hst, hi, ho, hn⟩ := trigger_fields
    { c with
        queue := c.queue ++ [operation]
        storage := writeQueuedOperations (c.queue ++ [operation])
        status :=
          { state := SyncState.queued
            pending := (c.queue ++ [operation]).length
            lastSyncedAt := c.status.lastSyncedAt
            lastError := none } }
  refine ⟨hq, hs, ?_, hi, ho, hn⟩
  rw [hst]
  simp

theorem trigger_timer_of_some (c : Config) (t : Nat) (h : c.syncTimer = some t) :
    triggerBackgroundSync c = c := by
  unfold triggerBackgroundSync
  simp [h]

theorem enqueue_timer_of_some (c : Config) (operation : Json) (t : Nat)
    (h : c.syncTimer = some t) :
    (enqueue c operation).syncTimer = some t := by
  unfold enqueue triggerBackgroundSync
  simp [h]

theorem enqueue_timer_of_none (c : Config) (operation : Json)
    (h1 : c.syncTimer = none) (h2 : c.online = true) :
    (enqueue c operation).syncTimer = some (c.now + 250) := by
  unfold enqueue triggerBackgroundSync
  simp [h1, h2, append_singleton_isEmpty]

theorem flushStart_of_nonempty_online (c : Config)
    (h1 : c.queue.isEmpty = false) (h2 : c.online = true) :
    flushStart c =
      { c with
          status :=
            { state := SyncState.syncing
              pending := c.queue.length
              lastSyncedAt := c.status.lastSyncedAt
              lastError := none }
          inflight := c.inflight ++ [c.queue] } := by
  unfold flushStart
  simp [h1, h2]

theorem flushSuccess_fields (c : Config) (batch : List Json) :
    (flushSuccess c batch).queue = c.queue.drop batch.length ∧
    (flushSuccess c batch).storage = writeQueuedOperations (c.queue.drop batch.length) ∧
    (flushSuccess c batch).status =
      { state :=
          if (c.queue.drop batch.length).isEmpty then SyncState.idle
          else SyncState.queued
        pending := (c.queue.drop batch.length).length
        lastSyncedAt := some c.now
        lastError := none } ∧
    (flushSuccess c batch).inflight = c.inflight ∧
    (flushSuccess c batch).now = c.now := by
  unfold flushSuccess
  by_cases h : (c.queue.drop batch.length).isEmpty = true
  · rw [if_pos h]
    exact ⟨rfl, rfl, rfl, rfl, rfl⟩
  · rw [if_neg h]
    obtain ⟨hq, hs, hst, hi, _, hn⟩ := trigger_fields (flushSuccessState c batch)
    exact ⟨hq, hs, hst, hi, hn⟩

theorem flushFailure_fields (c : Config) (message : String) :
    (flushFailure c message).queue = c.queue ∧
    (flushFailure c message).storage = c.storage ∧
    (flushFailure c message).status =
      { state := SyncState.error
        pending := c.queue.length
        lastSyncedAt := c.status.lastSyncedAt
        lastError := some message } ∧
    (flushFailure c message).inflight = c.inflight :=
  ⟨rfl, rfl, rfl, rfl⟩

/-- C10: every call to enqueue publishes state "queued" with pending equal to
the new queue length, keeping lastSyncedAt and dropping lastError, regardless
of the prior state; in-flight fetches are left unresolved, so an append while
syncing is observed as "queued" before the flush resolves, and an append
while in state "error" clears the recorded error. -/
theorem enqueue_publishes_queued (c : Config) (operation : Json) :
    (enqueue c operation).status =
      { state := SyncState.queued
        pending := c.queue.length + 1
        lastSyncedAt := c.status.lastSyncedAt
        lastError := none } ∧
    (enqueue c operation).inflight = c.inflight :=
  ⟨(enqueue_fields c operation).2.2.1, (enqueue_fields c operation).2.2.2.1⟩

/-- C2: if a flush succeeds for the batch snapshot it captured, and the queue
meanwhile grew by the operations `extra` appended during the flight, then the
success handler removes exactly the first batch.length entries: the queue is
exactly `extra` in original append order, pending equals its length, the
state is idle when it is empty and queued otherwise, and lastSyncedAt is set
to the current time. -/
theorem flush_success_removes_exactly_batch (c : Config) (batch extra : List Json)
    (i : Nat)
    (hi : c.inflight.get? i = some batch)
    (hq : c.queue = batch ++ extra) :
    (stepFn c (Step.ok i)).queue = extra ∧
    (stepFn c (Step.ok i)).status.pending = extra.length ∧
    (stepFn c (Step.ok i)).status.state =
      (if extra.isEmpty then SyncState.idle else SyncState.queued) ∧
    (stepFn c (Step.ok i)).status.lastSyncedAt = some c.now := by
  have hstep : stepFn c (Step.ok i)
      = flushSuccess { c with inflight := c.inflight.eraseIdx i } batch := by
    simp only [stepFn]
    rw [hi]
  have hdrop : ({ c with inflight := c.inflight.eraseIdx i } : Config).queue.drop
      batch.length = extra := by
    show c.queue.drop batch.length = extra
    rw [hq]
    exact List.drop_left batch extra
  obtain ⟨h1, _, h3, _, _⟩ :=
    flushSuccess_fields { c with inflight := c.inflight.eraseIdx i } batch
  have hqueue : (flushSuccess { c with inflight := c.inflight.eraseIdx i } batch).queue
      = extra := by rw [h1, hdrop]
  have hstatus : (flushSuccess { c with inflight := c.inflight.eraseIdx i } batch).status
      = { state := if extra.isEmpty then SyncState.idle else SyncState.queued
          pending := extra.length
          lastSyncedAt := some c.now
          lastError := none } := by
    rw [h3, hdrop]
  rw [hstep]
  exact ⟨hqueue, by rw [hstatus], by rw [hstatus], by rw [hstatus]⟩

/-- A concrete mid-flight configuration: the fetch for batch [opA] has
started and not resolved, and opB was appended during the flush. -/
def syncingCfg : Config :=
  { queue := [opA, opB]
    storage := writeQueuedOperations [opA, opB]
    status := { state := SyncState.queued, pending := 2, lastSyncedAt := none, lastError := none }
    syncTimer := none
    inflight := [[opA]]
    online := true
    now := 7 }

/-- Witness for C2 at syncingCfg: resolving the in-flight fetch successfully
leaves exactly the operation appended during the flush. -/
theorem flush_success_removes_exactly_batch_witness :
    (stepFn syncingCfg (Step.ok 0)).queue = [opB] ∧
    (stepFn syncingCfg (Step.ok 0)).status.pending = 1 ∧
    (stepFn syncingCfg (Step.ok 0)).status.state = SyncState.queued ∧
    (stepFn syncingCfg (Step.ok 0)).status.lastSyncedAt = some 7 := by
  have h := flush_success_removes_exactly_batch syncingCfg [opA] [opB] 0 rfl rfl
  exact ⟨h.1, by simpa using h.2.1, by simpa using h.2.2.1, h.2.2.2⟩

/-- C3: if the flush attempt for an in-flight batch fails, the queue and its
persisted copy are not mutated at all — in particular the batch is still a
prefix followed by whatever was appended during the flight — and the status
becomes state "error" with the failure message recorded, pending equal to
the unchanged queue length, and lastSyncedAt untouched. -/
theorem flush_failure_preserves_queue (c : Config) (i : Nat) (message : String)
    (batch extra : List Json)
    (hi : c.inflight.get? i = some batch)
    (hq : c.queue = batch ++ extra) :
    (stepFn c (Step.fail i message)).queue = c.queue ∧
    (stepFn c (Step.fail i message)).storage = c.storage ∧
    (stepFn c (Step.fail i message)).queue = batch ++ extra ∧
    (stepFn c (Step.fail i message)).status.state = SyncState.error ∧
    (stepFn c (Step.fail i message)).status.pending = c.queue.length ∧
    (stepFn c (Step.fail i message)).status.lastError = some message ∧
    (stepFn c (Step.fail i message)).status.lastSyncedAt = c.status.lastSyncedAt := by
  have hstep : stepFn c (Step.fail i message)
      = flushFailure { c with inflight := c.inflight.eraseIdx i } message := by
    simp only [stepFn]
    rw [hi]
  rw [hstep]
  refine ⟨rfl, rfl, ?_, rfl, rfl, rfl, rfl⟩
  show c.queue = batch ++ extra
  exact hq

/-- Witness for C3 at syncingCfg: a failed flush leaves both queued
operations in place and records the error. -/
theorem flush_failure_preserves_queue_witness :
    (stepFn syncingCfg (Step.fail 0 "boom")).queue = [opA, opB] ∧
    (stepFn syncingCfg (Step.fail 0 "boom")).status.state = SyncState.error ∧
    (stepFn syncingCfg (Step.fail 0 "boom")).status.pending = 2 ∧
    (stepFn syncingCfg (Step.fail 0 "boom")).status.lastError = some "boom" := by
  have h := flush_failure_preserves_queue syncingCfg 0 "boom" [opA] [opB] rfl rfl
  exact ⟨h.2.2.1, h.2.2.2.1, by simpa using h.2.2.2.2.1, h.2.2.2.2.2.1⟩

/-- The trace refuting single flight: enqueue opA while online, let the
debounce timer fire (the fetch for [opA] starts), enqueue opB while that
fetch is pending (triggerBackgroundSync arms a fresh timer because syncTimer
was cleared before flushQueue ran), and let the new timer fire before the
first fetch resolves. -/
def doubleFlightTrace : List Step :=
  [Step.enq opA, Step.fire, Step.enq opB, Step.fire]

/-- C1 (code bug): after doubleFlightTrace two fetches are in flight at
once — the fetch for [opA] has started and not resolved, yet a second
flushQueue run starts the fetch for [opA, opB].  Neither
triggerBackgroundSync (which only checks the timer handle, already cleared
when the callback runs) nor flushQueue guards on state "syncing". -/
theorem second_flush_starts_mid_flight :
    (run (mkBackend none true) doubleFlightTrace).inflight = [[opA], [opA, opB]] ∧
    (run (mkBackend none true) doubleFlightTrace).status.state = SyncState.syncing :=
  ⟨rfl, rfl⟩

/-- A status value used by the notification counterexample. -/
def statusIdle : SyncStatus :=
  { state := SyncState.idle, pending := 0, lastSyncedAt := none, lastError := none }

/-- Two listeners in subscription order; the first one's callback
unsubscribes the second (not yet notified) one. -/
def unsubscribesOther : List ListenerSpec :=
  [{ id := 0, action := fun _ => [1] }, { id := 1, action := fun _ => [] }]

/-- C9 (code bug): notify iterates the live listener Set without taking a
snapshot, so when listener 0 unsubscribes the not-yet-notified listener 1
during the notification, listener 1 is skipped: only [0] is invoked although
both 0 and 1 were subscribed when the notification began. -/
theorem notify_skips_unsubscribed_listener :
    notify statusIdle unsubscribesOther = [0] ∧
    unsubscribesOther.map ListenerSpec.id = [0, 1] :=
  ⟨rfl, rfl⟩

theorem flushStart_fields (c : Config) :
    (flushStart c).queue = c.queue ∧
    (flushStart c).storage = c.storage ∧
    (flushStart c).syncTimer = c.syncTimer ∧
    (flushStart c).online = c.online ∧
    (flushStart c).now = c.now := by
  unfold flushStart
  by_cases h1 : c.queue.isEmpty = true
  · rw [if_pos h1]; exact ⟨rfl, rfl, rfl, rfl, rfl⟩
  · rw [if_neg h1]
    by_cases h2 : (!c.online) = true
    · rw [if_pos h2]; exact ⟨rfl, rfl, rfl, rfl, rfl⟩
    · rw [if_neg h2]; exact ⟨rfl, rfl, rfl, rfl, rfl⟩

theorem flushStart_pending (c : Config) :
    (flushStart c).status.pending = (flushStart c).queue.length := by
  unfold flushStart
  by_cases h1 : c.queue.isEmpty = true
  · rw [if_pos h1]
    show (0 : Nat) = c.queue.length
    rw [List.isEmpty_iff.mp h1]
    rfl
  · rw [if_neg h1]
    by_cases h2 : (!c.online) = true
    · rw [if_pos h2]
    · rw [if_neg h2]

theorem stepFn_pending (c : Config) (s : Step)
    (h : c.status.pending = c.queue.length) :
    (stepFn c s).status.pending = (stepFn c s).queue.length := by
  cases s with
  | enq operation =>
      obtain ⟨hq, _, hst, _, _, _⟩ := enqueue_fields c operation
      show (enqueue c operation).status.pending = (enqueue c operation).queue.length
      rw [hq, hst]
      simp
  | trigger =>
      obtain ⟨hq, _, hst, _, _, _⟩ := trigger_fields c
      show (triggerBackgroundSync c).status.pending = (triggerBackgroundSync c).queue.length
      rw [hq, hst, h]
  | fire =>
      show (timerFire c).status.pending = (timerFire c).queue.length
      unfold timerFire
      cases c.syncTimer with
      | none => exact h
      | some t => exact flushStart_pending _
  | ok i =>
      show (stepFn c (Step.ok i)).status.pending = (stepFn c (Step.ok i)).queue.length
      simp only [stepFn]
      cases hopt : c.inflight.get? i with
      | none => exact h
      | some batch =>
          show (flushSuccess { c with inflight := c.inflight.eraseIdx i } batch).status.pending
              = (flushSuccess { c with inflight := c.inflight.eraseIdx i } batch).queue.length
          obtain ⟨h1, _, h3, _, _⟩ :=
            flushSuccess_fields { c with inflight := c.inflight.eraseIdx i } batch
          rw [h1, h3]
  | fail i message =>
      show (stepFn c (Step.fail i message)).status.pending
          = (stepFn c (Step.fail i message)).queue.length
      simp only [stepFn]
      cases hopt : c.inflight.get? i with
      | none => exact h
      | some batch => rfl
  | goOnline =>
      obtain ⟨hq, _, hst, _, _, _⟩ := trigger_fields { c with online := true }
      show (triggerBackgroundSync { c with online := true }).status.pending
          = (triggerBackgroundSync { c with online := true }).queue.length
      rw [hq, hst]
      exact h
  | goOffline => exact h
  | tick dt => exact h

theorem run_pending (steps : List Step) : ∀ c : Config,
    c.status.pending = c.queue.length →
    (run c steps).status.pending = (run c steps).queue.length := by
  induction steps with
  | nil => intro c h; exact h
  | cons s rest ih =>
      intro c h
      exact ih (stepFn c s) (stepFn_pending c s h)

theorem mkBackend_pending (storage : Option RawValue) (online : Bool) :
    (mkBackend storage online).status.pending = (mkBackend storage online).queue.length := by
  unfold mkBackend
  by_cases h : (readQueuedOperations storage).isEmpty = true
  · rw [if_pos h]; rfl
  · rw [if_neg h]
    obtain ⟨hq, _, hst, _, _, _⟩ := trigger_fields (mkBackendBase storage online)
    rw [hq, hst]; rfl

/-- C4: for every event sequence from construction onward, the published
SyncStatus.pending equals the queue length; in particular it does so
immediately after the queue mutations in enqueue and in the flush success
handler, since every atomic block re-establishes the equality before it
returns control. -/
theorem pending_always_matches_queue (storage : Option RawValue) (online : Bool)
    (steps : List Step) :
    (run (mkBackend storage online) steps).status.pending
      = (run (mkBackend storage online) steps).queue.length :=
  run_pending steps (mkBackend storage online) (mkBackend_pending storage online)

theorem read_write (operations : List Json) :
    readQueuedOperations (writeQueuedOperations operations) = operations := rfl

theorem stepFn_storage (c : Config) (s : Step)
    (h : readQueuedOperations c.storage = c.queue) :
    readQueuedOperations (stepFn c s).storage = (stepFn c s).queue := by
  cases s with
  | enq operation =>
      obtain ⟨hq, hs, _, _, _, _⟩ := enqueue_fields c operation
      show readQueuedOperations (enqueue c operation).storage = (enqueue c operation).queue
      rw [hq, hs, read_write]
  | trigger =>
      obtain ⟨hq, hs, _, _, _, _⟩ := trigger_fields c
      show readQueuedOperations (triggerBackgroundSync c).storage = (triggerBackgroundSync c).queue
      rw [hq, hs]
      exact h
  | fire =>
      show readQueuedOperations (timerFire c).storage = (timerFire c).queue
      unfold timerFire
      cases c.syncTimer with
      | none => exact h
      | some t =>
          obtain ⟨hq, hs, _, _, _⟩ :=
            flushStart_fields { c with syncTimer := none, now := max c.now t }
          rw [hq, hs]
          exact h
  | ok i =>
      show readQueuedOperations (stepFn c (Step.ok i)).storage = (stepFn c (Step.ok i)).queue
      simp only [stepFn]
      cases hopt : c.inflight.get? i with
      | none => exact h
      | some batch =>
          show readQueuedOperations
                (flushSuccess { c with inflight := c.inflight.eraseIdx i } batch).storage
              = (flushSuccess { c with inflight := c.inflight.eraseIdx i } batch).queue
          obtain ⟨h1, h2, _, _, _⟩ :=
            flushSuccess_fields { c with inflight := c.inflight.eraseIdx i } batch
          rw [h1, h2, read_write]
  | fail i message =>
      show readQueuedOperations (stepFn c (Step.fail i message)).storage
          = (stepFn c (Step.fail i message)).queue
      simp only [stepFn]
      cases hopt : c.inflight.get? i with
      | none => exact h
      | some batch => exact h
  | goOnline =>
      obtain ⟨hq, hs, _, _, _, _⟩ := trigger_fields { c with online := true }
      show readQueuedOperations (triggerBackgroundSync { c with online := true }).storage
          = (triggerBackgroundSync { c with online := true }).queue
      rw [hq, hs]
      exact h
  | goOffline => exact h
  | tick dt => exact h

theorem run_storage (steps : List Step) : ∀ c : Config,
    readQueuedOperations c.storage = c.queue →
    readQueuedOperations (run c steps).storage = (run c steps).queue := by
  induction steps with
  | nil => intro c h; exact h
  | cons s rest ih =>
      intro c h
      exact ih (stepFn c s) (stepFn_storage c s h)

theorem mkBackend_queue (storage : Option RawValue) (online : Bool) :
    (mkBackend storage online).queue = readQueuedOperations storage := by
  unfold mkBackend
  by_cases h : (readQueuedOperations storage).isEmpty = true
  · rw [if_pos h]; rfl
  · rw [if_neg h]
    obtain ⟨hq, _, _, _, _, _⟩ := trigger_fields (mkBackendBase storage online)
    rw [hq]; rfl

theorem mkBackend_storage_field (storage : Option RawValue) (online : Bool) :
    (mkBackend storage online).storage = storage := by
  unfold mkBackend
  by_cases h : (readQueuedOperations storage).isEmpty = true
  · rw [if_pos h]; rfl
  · rw [if_neg h]
    obtain ⟨_, hs, _, _, _, _⟩ := trigger_fields (mkBackendBase storage online)
    rw [hs]; rfl

theorem mkBackend_hydrated (storage : Option RawValue) (online : Bool) :
    readQueuedOperations (mkBackend storage online).storage
      = (mkBackend storage online).queue := by
  rw [mkBackend_queue, mkBackend_storage_field]

/-- C5: writeQueuedOperations followed by readQueuedOperations is the
identity on operation lists; after any event sequence from construction
onward, a restarted engine hydrated from the persisted storage has exactly
the same queue in the same order; and enqueue persists the full queue within
the same atomic call as the in-memory append. -/
theorem persistence_round_trip (operations : List Json) (storage : Option RawValue)
    (online restartOnline : Bool) (steps : List Step) (c : Config) (operation : Json) :
    readQueuedOperations (writeQueuedOperations operations) = operations ∧
    (mkBackend (run (mkBackend storage online) steps).storage restartOnline).queue
      = (run (mkBackend storage online) steps).queue ∧
    (enqueue c operation).storage = writeQueuedOperations ((enqueue c operation).queue) ∧
    (enqueue c operation).queue = c.queue ++ [operation] := by
  obtain ⟨hq, hs, _, _, _, _⟩ := enqueue_fields c operation
  refine ⟨read_write operations, ?_, ?_, hq⟩
  · rw [mkBackend_queue]
    exact run_storage steps (mkBackend storage online) (mkBackend_hydrated storage online)
  · rw [hq, hs]

theorem mkBackend_status (storage : Option RawValue) (online : Bool) :
    (mkBackend storage online).status =
      { state :=
          if (readQueuedOperations storage).isEmpty then SyncState.idle
          else SyncState.queued
        pending := (readQueuedOperations storage).length
        lastSyncedAt := none
        lastError := none } := by
  unfold mkBackend
  by_cases h : (readQueuedOperations storage).isEmpty = true
  · rw [if_pos h]; rfl
  · rw [if_neg h]
    obtain ⟨_, _, hst, _, _, _⟩ := trigger_fields (mkBackendBase storage online)
    rw [hst]; rfl

/-- An object carrying an operation tag unknown to the current code. -/
def unknownTagOp : Json :=
  Json.obj [("type", Json.str "teleport")]

/-- C6 counterexample: a persisted well-formed array whose single entry has
the unknown operation tag "teleport" is NOT treated as an empty log —
readQueuedOperations returns the entry unchanged, because the source only
checks Array.isArray and casts without inspecting the elements. -/
theorem unknown_tag_value_reads_nonempty :
    readQueuedOperations (some (RawValue.wellFormed (Json.arr [unknownTagOp]))) ≠ [] ∧
    readQueuedOperations (some (RawValue.wellFormed (Json.arr [unknownTagOp])))
      = [unknownTagOp] :=
  ⟨List.cons_ne_nil unknownTagOp [], rfl⟩

/-- C6 (amended): hydration never throws — a missing, unparsable, or
non-array persisted value is treated as an empty log, while a well-formed
array is accepted wholesale without inspecting its entries (so unknown
future operation tags are retained in the hydrated queue rather than
treated as corruption); the initial status has pending equal to the
hydrated length and state "queued" when non-empty, "idle" otherwise. -/
theorem hydration_never_fails_amended (storage : Option RawValue) (b : Bool)
    (elems : List Json) (s : String) (n : Int) (bb : Bool)
    (fields : List (String × Json)) :
    readQueuedOperations none = [] ∧
    readQueuedOperations (some RawValue.malformed) = [] ∧
    readQueuedOperations (some (RawValue.wellFormed (Json.arr elems))) = elems ∧
    readQueuedOperations (some (RawValue.wellFormed (Json.str s))) = [] ∧
    readQueuedOperations (some (RawValue.wellFormed (Json.num n))) = [] ∧
    readQueuedOperations (some (RawValue.wellFormed (Json.bool bb))) = [] ∧
    readQueuedOperations (some (RawValue.wellFormed Json.null)) = [] ∧
    readQueuedOperations (some (RawValue.wellFormed (Json.obj fields))) = [] ∧
    (mkBackend storage b).queue = readQueuedOperations storage ∧
    (mkBackend storage b).status.pending = (readQueuedOperations storage).length ∧
    (mkBackend storage b).status.state
      = (if (readQueuedOperations storage).isEmpty then SyncState.idle
         else SyncState.queued) := by
  refine ⟨rfl, rfl, rfl, rfl, rfl, rfl, rfl, rfl, mkBackend_queue storage b, ?_, ?_⟩
  · rw [mkBackend_status]
  · rw [mkBackend_status]

/-- C7: if the local durable store rejects a mutating operation, the error
propagates to the caller and the backend state — queue, persisted queue and
published status alike — is completely unchanged; if the local call
succeeds, the caller's promise resolves for every one of the four mutating
operations; and a flush failure resolving later touches neither the queue
nor its persisted copy (sync failures surface only through the status, never
through the caller of the mutation, whose result was already produced). -/
theorem local_failure_atomicity (c : Config) (e : String) (record : Json)
    (id : String) (ids : List String) (i : Nat) (message : String) :
    addCalculation (Except.error e) c record = (Except.error e, c) ∧
    deleteCalculation (Except.error e) c id = (Except.error e, c) ∧
    bulkDeleteCalculations (Except.error e) c ids = (Except.error e, c) ∧
    clearCalculations (Except.error e) c = (Except.error e, c) ∧
    (addCalculation (Except.ok ()) c record).fst = Except.ok () ∧
    (deleteCalculation (Except.ok ()) c id).fst = Except.ok () ∧
    (bulkDeleteCalculations (Except.ok ()) c ids).fst = Except.ok () ∧
    (clearCalculations (Except.ok ()) c).fst = Except.ok () ∧
    (stepFn c (Step.fail i message)).queue = c.queue ∧
    (stepFn c (Step.fail i message)).storage = c.storage := by
  refine ⟨rfl, rfl, rfl, rfl, rfl, rfl, ?_, rfl, ?_, ?_⟩
  · cases ids with
    | nil => rfl
    | cons x xs => rfl
  · simp only [stepFn]
    cases hopt : c.inflight.get? i with
    | none => rfl
    | some batch => rfl
  · simp only [stepFn]
    cases hopt : c.inflight.get? i with
    | none => rfl
    | some batch => rfl

/-- A burst tail: each later append of the burst arrives dt milliseconds
after the previous one and enqueues its operation. -/
def burstSteps (rest : List (Nat × Json)) : List Step :=
  rest.flatMap (fun p => [Step.tick p.fst, Step.enq p.snd])

/-- The configuration after the first append of a burst followed by the
remaining timed appends. -/
def afterBurst (c : Config) (first : Json) (rest : List (Nat × Json)) : Config :=
  run c (Step.enq first :: burstSteps rest)

theorem append_cons_isEmpty (l : List Json) (a : Json) (l2 : List Json) :
    (l ++ a :: l2).isEmpty = false := by
  cases l <;> rfl

theorem burst_keeps_timer (rest : List (Nat × Json)) : ∀ (c : Config) (t : Nat),
    c.syncTimer = some t →
    (run c (burstSteps rest)).syncTimer = some t ∧
    (run c (burstSteps rest)).queue = c.queue ++ rest.map Prod.snd ∧
    (run c (burstSteps rest)).inflight = c.inflight ∧
    (run c (burstSteps rest)).online = c.online ∧
    (run c (burstSteps rest)).now = c.now + (rest.map Prod.fst).sum := by
  induction rest with
  | nil =>
      intro c t h
      refine ⟨h, ?_, rfl, rfl, ?_⟩
      · show c.queue = c.queue ++ List.map Prod.snd []
        simp
      · show c.now = c.now + (List.map Prod.fst []).sum
        simp
  | cons p rest ih =>
      intro c t h
      have hrw : run c (burstSteps (p :: rest))
          = run (stepFn (stepFn c (Step.tick p.fst)) (Step.enq p.snd)) (burstSteps rest) := rfl
      have htick : (stepFn c (Step.tick p.fst)).syncTimer = some t := h
      have henq : (stepFn (stepFn c (Step.tick p.fst)) (Step.enq p.snd)).syncTimer = some t :=
        enqueue_timer_of_some (stepFn c (Step.tick p.fst)) p.snd t htick
      obtain ⟨i1, i2, i3, i4, i5⟩ :=
        ih (stepFn (stepFn c (Step.tick p.fst)) (Step.enq p.snd)) t henq
      obtain ⟨hq, _, _, hi, ho, hn⟩ :=
        enqueue_fields (stepFn c (Step.tick p.fst)) p.snd
      rw [hrw]
      refine ⟨i1, ?_, ?_, ?_, ?_⟩
      · rw [i2]
        have hq2 : (stepFn (stepFn c (Step.tick p.fst)) (Step.enq p.snd)).queue
            = c.queue ++ [p.snd] := hq
        rw [hq2, List.append_assoc]
        rfl
      · rw [i3]
        exact hi
      · rw [i4]
        exact ho
      · rw [i5]
        have hn2 : (stepFn (stepFn c (Step.tick p.fst)) (Step.enq p.snd)).now
            = c.now + p.fst := hn
        rw [hn2]
        simp [Nat.add_assoc]

/-- C8: starting from any state with no pending debounce timer while online,
a burst of appends — a first one and then further timed appends whose delays
sum to at most the 250 ms window — arms exactly one timer, at the time of
the first append plus 250 ms; the later appends neither restart the window
nor start any attempt (the in-flight set is untouched); and when the timer
fires, exactly 250 ms after the first append, exactly one fetch starts whose
batch is the whole queue, covering every operation of the burst. -/
theorem debounce_burst_single_attempt (c : Config) (first : Json)
    (rest : List (Nat × Json))
    (h1 : c.syncTimer = none) (h2 : c.online = true)
    (h3 : (rest.map Prod.fst).sum ≤ 250) :
    (afterBurst c first rest).syncTimer = some (c.now + 250) ∧
    (afterBurst c first rest).queue = c.queue ++ first :: rest.map Prod.snd ∧
    (afterBurst c first rest).inflight = c.inflight ∧
    (timerFire (afterBurst c first rest)).now = c.now + 250 ∧
    (timerFire (afterBurst c first rest)).syncTimer = none ∧
    (timerFire (afterBurst c first rest)).inflight
      = c.inflight ++ [c.queue ++ first :: rest.map Prod.snd] := by
  have he_timer : (enqueue c first).syncTimer = some (c.now + 250) :=
    enqueue_timer_of_none c first h1 h2
  obtain ⟨eq1, _, _, ei, eo, en⟩ := enqueue_fields c first
  obtain ⟨b1, b2, b3, b4, b5⟩ := burst_keeps_timer rest (enqueue c first) (c.now + 250) he_timer
  have hA1 : (afterBurst c first rest).syncTimer = some (c.now + 250) := b1
  have hA2 : (afterBurst c first rest).queue = c.queue ++ first :: rest.map Prod.snd := by
    have : (afterBurst c first rest).queue = (enqueue c first).queue ++ rest.map Prod.snd := b2
    rw [this, eq1, List.append_assoc]
    rfl
  have hA3 : (afterBurst c first rest).inflight = c.inflight := by
    have : (afterBurst c first rest).inflight = (enqueue c first).inflight := b3
    rw [this, ei]
  have hA4 : (afterBurst c first rest).online = true := by
    have : (afterBurst c first rest).online = (enqueue c first).online := b4
    rw [this, eo, h2]
  have hA5 : (afterBurst c first rest).now = c.now + (rest.map Prod.fst).sum := by
    have : (afterBurst c first rest).now
        = (enqueue c first).now + (rest.map Prod.fst).sum := b5
    rw [this, en]
  have hmax : max (afterBurst c first rest).now (c.now + 250) = c.now + 250 := by
    rw [hA5]
    exact Nat.max_eq_right (Nat.add_le_add_left h3 c.now)
  have hfire : timerFire (afterBurst c first rest)
      = flushStart
          { afterBurst c first rest with
              syncTimer := none
              now := max (afterBurst c first rest).now (c.now + 250) } := by
    unfold timerFire
    rw [hA1]
  have hne : ({ afterBurst c first rest with
      syncTimer := none
      now := max (afterBurst c first rest).now (c.now + 250) } : Config).queue.isEmpty
      = false := by
    show (afterBurst c first rest).queue.isEmpty = false
    rw [hA2]
    exact append_cons_isEmpty c.queue first (rest.map Prod.snd)
  have honline : ({ afterBurst c first rest with
      syncTimer := none
      now := max (afterBurst c first rest).now (c.now + 250) } : Config).online = true := hA4
  have hflush := flushStart_of_nonempty_online _ hne honline
  refine ⟨hA1, hA2, hA3, ?_, ?_, ?_⟩
  · rw [hfire, hflush]
    exact hmax
  · rw [hfire, hflush]
  · rw [hfire, hflush]
    show (afterBurst c first rest).inflight ++ [(afterBurst c first rest).queue]
        = c.inflight ++ [c.queue ++ first :: rest.map Prod.snd]
    rw [hA2, hA3]

/-- Witness for C8: from a freshly constructed online backend, appending opA
and then opB 100 ms later arms one timer for t = 250; when it fires at
t = 250 exactly one fetch starts, with batch [opA, opB]. -/
theorem debounce_burst_single_attempt_witness :
    (afterBurst (mkBackend none true) opA [(100, opB)]).syncTimer = some 250 ∧
    (timerFire (afterBurst (mkBackend none true) opA [(100, opB)])).now = 250 ∧
    (timerFire (afterBurst (mkBackend none true) opA [(100, opB)])).inflight
      = [[opA, opB]] := by
  have h := debounce_burst_single_attempt (mkBackend none true) opA [(100, opB)]
    rfl rfl (by decide)
  exact ⟨h.1, h.2.2.2.1, h.2.2.2.2.2⟩
